import Mathlib

/-!
Verification development for the single-room real-time chat broadcaster
(`src/workers/facet.ts`) and its sanitizer boundary (`src/lib/sanitizer.ts`).

The Durable-Object room is modelled as a pure state machine: the platform
serializes event processing, so each handler is a function from a room state
and an inbound event to a new room state plus the ordered list of outbound
sends `(socketId, payload)`. Machine integers are `Nat`/`Int`; the JavaScript
number arithmetic inside the rate limiter is modelled with exact integer
arithmetic (`floor(t / (w / m)) = t * m / w` in natural division), which
coincides with the float computation for the default configuration, where
`windowMs / maxRequests = 2000` exactly. Strings are
Lean `String`s; the character-level sanitizer operations work on `List Char`.
The DOMPurify-based `sanitizeChatMessage` is an external boundary and is kept
as an abstract parameter `sanitize : String → String` of the room handlers.
-/

/-- The `type` discriminator of a ChatMessage (facet.ts line 10). -/
inductive MsgType where
  | message
  | join
  | leave
  | system
deriving DecidableEq, Repr

/-- The wire/history unit (facet.ts `ChatMessage`). Timestamps are modelled
as `Nat` instants rather than ISO strings; ids are the strings produced by
`crypto.randomUUID()`, supplied externally per event. -/
structure ChatMessage where
  id : String
  userId : String
  username : String
  message : String
  timestamp : Nat
  type : MsgType
deriving DecidableEq, Repr

/-- Rate limit configuration (facet.ts `RateLimitConfig`). -/
structure RateLimitConfig where
  maxRequests : Nat
  windowMs : Nat
  blockDurationMs : Nat
deriving DecidableEq, Repr

/-- Per-user token bucket state (facet.ts `UserRateLimit`). -/
structure UserRateLimit where
  tokens : Int
  lastRefill : Nat
  blockedUntil : Option Nat
deriving DecidableEq, Repr

/-- Result of `checkRateLimit` (the `{allowed, remainingTokens?, blockedUntil?}`
record, facet.ts line 217). -/
inductive RateLimitResult where
  | allowed (remainingTokens : Int)
  | blocked (blockedUntil : Nat)
deriving DecidableEq, Repr

/-- Whether a check result is the Allowed outcome. -/
def RateLimitResult.isAllowed : RateLimitResult → Bool
  | .allowed _ => true
  | .blocked _ => false

/-- The default configuration of the room (facet.ts lines 29-33). -/
def rateLimitConfig : RateLimitConfig :=
  { maxRequests := 30, windowMs := 60000, blockDurationMs := 60000 }

/-- History capacity (facet.ts line 27). -/
def maxHistorySize : Nat := 100

/-- A live WebSocket connection with the identity carried in its tags
(`userId:...`, `username:...`). The `id` stands for the socket's identity
(the `socket !== excludeSocket` comparison). -/
structure Conn where
  id : Nat
  userId : String
  username : String
deriving DecidableEq, Repr

/-- The room's in-memory state: the sockets returned by
`ctx.getWebSockets()`, `messageHistory`, and `rateLimitMap` (a JS `Map`,
modelled as an insertion-ordered association list). -/
structure RoomState where
  sockets : List Conn
  messageHistory : List ChatMessage
  rateLimitMap : List (String × UserRateLimit)
deriving DecidableEq, Repr

/-- Ambient data of one handler invocation: `Date.now()` and the value
`crypto.randomUUID()` returns for the event constructed in that handler. -/
structure MsgCtx where
  now : Nat
  freshId : String
deriving DecidableEq, Repr

/-- Parsed inbound frame (`data.type` switch in `webSocketMessage`). -/
inductive Inbound where
  | message (text : String)
  | ping
  | unknown
deriving DecidableEq, Repr

/-- Outbound payloads the room sends (facet.ts calls to `sendToSocket`,
`broadcastMessage` and `broadcastWithUserCount`). -/
inductive Outbound where
  | system (message : String) (timestamp : Nat) (onlineUsers : List String)
  | history (messages : List ChatMessage) (onlineUsers : List String)
  | chat (m : ChatMessage)
  | chatWithUsers (m : ChatMessage) (onlineUsers : List String)
  | rateLimitExceeded (blockedUntil : Nat) (remainingTime : Nat)
  | errorNote (message : String)
  | pong
deriving DecidableEq, Repr

/-! ### Sanitizer boundary (src/lib/sanitizer.ts) -/

/-- JavaScript whitespace class (`\s`, and what `String.prototype.trim`
removes): ASCII whitespace plus the Unicode space separators. -/
def isJsSpace (c : Char) : Bool :=
  c == ' ' || c == '\t' || c == '\n' || c == '\r' ||
  c == '\u000B' || c == '\u000C' || c == '\u00A0' || c == '\uFEFF' ||
  c == '\u1680' || ('\u2000' ≤ c && c ≤ '\u200A') ||
  c == '\u2028' || c == '\u2029' || c == '\u202F' || c == '\u205F' || c == '\u3000'

/-- JavaScript `\w` word characters: ASCII alphanumerics and underscore. -/
def isWordChar (c : Char) : Bool := c.isAlphanum || c == '_'

/-- The character class kept by `replace(/[^\w\s\-_.]/g, '')` in
`sanitizeUsername`. -/
def allowedUserChar (c : Char) : Bool :=
  isWordChar c || isJsSpace c || c == '-' || c == '_' || c == '.'

/-- Drop trailing JS whitespace (the right half of `trim`). -/
def dropTrailingWs (l : List Char) : List Char :=
  (l.reverse.dropWhile isJsSpace).reverse

/-- `String.prototype.trim` on a character list. -/
def jsTrimL (l : List Char) : List Char :=
  dropTrailingWs (l.dropWhile isJsSpace)

/-- `String.prototype.trim`. -/
def jsTrim (s : String) : String := (jsTrimL s.toList).asString

/-- Worker for `collapseWs`; the flag records whether the previous kept
position was inside a whitespace run (whose single replacement space was
already emitted). -/
def collapseWsAux : Bool → List Char → List Char
  | _, [] => []
  | inRun, c :: rest =>
      if isJsSpace c then
        if inRun then collapseWsAux true rest
        else ' ' :: collapseWsAux true rest
      else c :: collapseWsAux false rest

/-- `replace(/\s+/g, ' ')`: every maximal run of JS whitespace becomes one
space character. -/
def collapseWs (l : List Char) : List Char := collapseWsAux false l

/-- Character pipeline of `sanitizeUsername` (sanitizer.ts lines 160-166):
trim, take the first 50 units, strip characters outside `[\w\s\-_.]`,
collapse whitespace runs to single spaces, trim again. -/
def sanitizeUsernameL (l : List Char) : List Char :=
  jsTrimL (collapseWs (((jsTrimL l).take 50).filter allowedUserChar))

/-- `sanitizeUsername` (sanitizer.ts lines 155-168): falsy input or an
all-stripped result yields the literal `"Anonymous"`. -/
def sanitizeUsername (username : String) : String :=
  if username = "" then "Anonymous"
  else
    let cleaned := sanitizeUsernameL username.toList
    if cleaned = [] then "Anonymous" else cleaned.asString

/-- Does `s` start with `pat`? -/
def startsWithCh : List Char → List Char → Bool
  | _, [] => true
  | [], _ :: _ => false
  | c :: s, p :: ps => c == p && startsWithCh s ps

/-- Does `s` contain `pat` as a contiguous substring? -/
def containsSub (pat : List Char) : List Char → Bool
  | [] => startsWithCh [] pat
  | c :: t => startsWithCh (c :: t) pat || containsSub pat t

/-- The suspicious patterns of sanitizer.ts lines 178-188 (each regex is a
case-insensitive literal substring test). -/
def suspiciousPatterns : List String :=
  ["<script", "javascript:", "vbscript:", "onload=", "onerror=", "onclick=",
   "onmouseover=", "onfocus=", "data:text/html"]

/-- `containsSuspiciousContent` (sanitizer.ts lines 173-191): true iff some
pattern occurs in the message, matched case-insensitively. -/
def containsSuspiciousContent (message : String) : Bool :=
  suspiciousPatterns.any (fun p => containsSub p.toList (message.toList.map Char.toLower))

/-! ### Rate limiter (facet.ts `checkRateLimit`, lines 217-254) -/

/-- `Math.floor(timePassed / (windowMs / maxRequests))` (facet.ts line 240).
Over exact arithmetic, flooring `t / (w / m)` equals flooring `t * m / w`,
which is natural division; the default configuration (`w = 60000`, `m = 30`)
makes the JavaScript float computation exact as well. -/
def tokensToAdd (cfg : RateLimitConfig) (timePassed : Nat) : Int :=
  ((timePassed * cfg.maxRequests) / cfg.windowMs : Nat)

/-- Lines 239-254 of facet.ts: refill whole elapsed increments (setting
`lastRefill = now` whenever at least one token is added), then either block
on an empty bucket or consume one token. -/
def checkRefillAndConsume (cfg : RateLimitConfig) (now : Nat) (u : UserRateLimit) :
    RateLimitResult × UserRateLimit :=
  let timePassed : Nat := now - u.lastRefill
  let add : Int := tokensToAdd cfg timePassed
  let u' : UserRateLimit :=
    if 0 < add then
      { u with tokens := min (cfg.maxRequests : Int) (u.tokens + add), lastRefill := now }
    else u
  if u'.tokens ≤ 0 then
    (RateLimitResult.blocked (now + cfg.blockDurationMs),
     { u' with blockedUntil := some (now + cfg.blockDurationMs) })
  else
    (RateLimitResult.allowed (u'.tokens - 1), { u' with tokens := u'.tokens - 1 })

/-- `checkRateLimit` (facet.ts lines 217-254) acting on one user's map entry
(`none` when the userId was never seen). Returns the result and the entry
written back to `rateLimitMap`. -/
def checkRateLimit (cfg : RateLimitConfig) (now : Nat) (entry : Option UserRateLimit) :
    RateLimitResult × UserRateLimit :=
  match entry with
  | none =>
      (RateLimitResult.allowed ((cfg.maxRequests : Int) - 1),
       { tokens := (cfg.maxRequests : Int) - 1, lastRefill := now, blockedUntil := none })
  | some userLimit =>
      match userLimit.blockedUntil with
      | some b =>
          if now < b then (RateLimitResult.blocked b, userLimit)
          else
            checkRefillAndConsume cfg now
              { tokens := (cfg.maxRequests : Int), lastRefill := now, blockedUntil := none }
      | none => checkRefillAndConsume cfg now userLimit

/-- `rateLimitMap.get(userId)`. -/
def lookupRL (m : List (String × UserRateLimit)) (k : String) : Option UserRateLimit :=
  (m.find? (fun p => p.1 == k)).map (fun p => p.2)

/-- `rateLimitMap.set(userId, v)` (JS `Map.set` keeps the position of an
existing key). -/
def setRL : List (String × UserRateLimit) → String → UserRateLimit →
    List (String × UserRateLimit)
  | [], k, v => [(k, v)]
  | (k', v') :: t, k, v =>
      if k' == k then (k, v) :: t else (k', v') :: setRL t k v

/-- Repeated `checkRateLimit` calls for a single user at one instant `now`,
threading the written-back entry (the per-user projection of the map). -/
def iterCheck (cfg : RateLimitConfig) (now : Nat) :
    Nat → Option UserRateLimit → List RateLimitResult × Option UserRateLimit
  | 0, entry => ([], entry)
  | n + 1, entry =>
      let r := checkRateLimit cfg now entry
      let rest := iterCheck cfg now n (some r.2)
      (r.1 :: rest.1, rest.2)

/-! ### History buffer (facet.ts `addToHistory`, lines 314-321) -/

/-- `addToHistory`: push, then `slice(-cap)` when the length exceeds the
capacity (dropping the oldest entries). -/
def addToHistory (cap : Nat) (hist : List ChatMessage) (m : ChatMessage) : List ChatMessage :=
  let pushed := hist ++ [m]
  if cap < pushed.length then pushed.drop (pushed.length - cap) else pushed

/-! ### Presence and delivery helpers -/

/-- Worker for `setDedup`, carrying the elements already emitted. -/
def setDedupAux (seen : List String) : List String → List String
  | [] => []
  | x :: xs =>
      if seen.contains x then setDedupAux seen xs
      else x :: setDedupAux (x :: seen) xs

/-- `[...new Set(xs)]`: deduplicate keeping the first occurrence of each
element, preserving order. -/
def setDedup (l : List String) : List String := setDedupAux [] l

/-- `getOnlineUsers` (facet.ts lines 256-269): deduplicated usernames of the
live sockets. -/
def getOnlineUsers (st : RoomState) : List String :=
  setDedup (st.sockets.map (fun s => s.username))

/-- `broadcastMessage` (facet.ts lines 271-285): send the ChatMessage to all
sockets except the optional excluded one. -/
def broadcastMessage (st : RoomState) (m : ChatMessage) (excludeSocket : Option Nat) :
    List (Nat × Outbound) :=
  (st.sockets.filter (fun s => !(excludeSocket == some s.id))).map
    (fun s => (s.id, Outbound.chat m))

/-- `broadcastWithUserCount` (facet.ts lines 287-304): like
`broadcastMessage` but the payload also carries the online-usernames
snapshot. -/
def broadcastWithUserCount (st : RoomState) (m : ChatMessage) (excludeSocket : Option Nat) :
    List (Nat × Outbound) :=
  (st.sockets.filter (fun s => !(excludeSocket == some s.id))).map
    (fun s => (s.id, Outbound.chatWithUsers m (getOnlineUsers st)))

/-- `Math.ceil((blockedUntil - Date.now()) / 1000)` (facet.ts line 126); at
every use `now < blockedUntil`, and over exact arithmetic the ceiling of
`d / 1000` for an integer `d ≥ 0` is `(d + 999) / 1000` in natural
division. -/
def remainingSeconds (blockedUntil now : Nat) : Nat :=
  (blockedUntil - now + 999) / 1000

/-- The `message`-kind ChatEvent built in `webSocketMessage` (facet.ts lines
158-165). -/
def chatEventOf (ws : Conn) (ctx : MsgCtx) (text : String) : ChatMessage :=
  { id := ctx.freshId, userId := ws.userId, username := ws.username,
    message := text, timestamp := ctx.now, type := MsgType.message }

/-- The `join` ChatEvent built in `handleWebSocket` (facet.ts lines 93-100). -/
def joinEvent (c : Conn) (ctx : MsgCtx) : ChatMessage :=
  { id := ctx.freshId, userId := c.userId, username := c.username,
    message := c.username ++ " joined the facet", timestamp := ctx.now,
    type := MsgType.join }

/-- The `leave` ChatEvent built in `webSocketClose` (facet.ts lines 193-200). -/
def leaveEvent (c : Conn) (ctx : MsgCtx) : ChatMessage :=
  { id := ctx.freshId, userId := c.userId, username := c.username,
    message := c.username ++ " left the facet", timestamp := ctx.now,
    type := MsgType.leave }

/-! ### Room handlers -/

/-- `handleWebSocket` (facet.ts lines 59-109): accept the socket (with the
username passed through `sanitizeUsername`), unicast the welcome, unicast
recent history when non-empty (`slice(-20)`), broadcast the join event to
everyone else, and append the join event to history. -/
def handleWebSocket (st : RoomState) (sockId : Nat) (userId rawUsername : String)
    (ctx : MsgCtx) : RoomState × List (Nat × Outbound) :=
  let username := sanitizeUsername rawUsername
  let c : Conn := { id := sockId, userId := userId, username := username }
  let st1 : RoomState := { st with sockets := st.sockets ++ [c] }
  let welcome : List (Nat × Outbound) :=
    [(sockId, Outbound.system ("Welcome to the facet, " ++ username ++ "!") ctx.now
        (getOnlineUsers st1))]
  let historyOut : List (Nat × Outbound) :=
    if 0 < st1.messageHistory.length then
      [(sockId, Outbound.history
          (st1.messageHistory.drop (st1.messageHistory.length - 20))
          (getOnlineUsers st1))]
    else []
  let jm := joinEvent c ctx
  ({ st1 with messageHistory := addToHistory maxHistorySize st1.messageHistory jm },
   welcome ++ historyOut ++ broadcastWithUserCount st1 jm (some sockId))

/-- `webSocketMessage` (facet.ts lines 112-185): rate-limit first, then
dispatch on the frame type; an accepted message is broadcast to every socket
(no exclusion) and appended to history. `sanitize` is the DOMPurify-based
`sanitizeChatMessage` boundary. -/
def webSocketMessage (sanitize : String → String) (st : RoomState) (ws : Conn)
    (ctx : MsgCtx) (data : Inbound) : RoomState × List (Nat × Outbound) :=
  let rl := checkRateLimit rateLimitConfig ctx.now (lookupRL st.rateLimitMap ws.userId)
  let st1 : RoomState := { st with rateLimitMap := setRL st.rateLimitMap ws.userId rl.2 }
  match rl.1 with
  | RateLimitResult.blocked b =>
      (st1, [(ws.id, Outbound.rateLimitExceeded b (remainingSeconds b ctx.now))])
  | RateLimitResult.allowed _ =>
      match data with
      | Inbound.message rawMessage =>
          if containsSuspiciousContent rawMessage then
            (st1, [(ws.id,
              Outbound.errorNote "Message contains potentially harmful content and was blocked.")])
          else
            let sanitizedMessage := sanitize rawMessage
            if jsTrim sanitizedMessage = "" then (st1, [])
            else
              let chatMessage := chatEventOf ws ctx sanitizedMessage
              ({ st1 with
                  messageHistory := addToHistory maxHistorySize st1.messageHistory chatMessage },
               broadcastMessage st1 chatMessage none)
      | Inbound.ping => (st1, [(ws.id, Outbound.pong)])
      | Inbound.unknown => (st1, [])

/-- `webSocketClose` (facet.ts lines 187-204): broadcast the leave event to
the remaining sockets and append it to history. -/
def webSocketClose (st : RoomState) (ws : Conn) (ctx : MsgCtx) :
    RoomState × List (Nat × Outbound) :=
  let lm := leaveEvent ws ctx
  ({ st with messageHistory := addToHistory maxHistorySize st.messageHistory lm },
   broadcastWithUserCount st lm (some ws.id))

/-- The `/history` query (facet.ts lines 345-355): the retained messages and
their count, read-only. -/
def getMessageHistory (st : RoomState) : List ChatMessage × Nat :=
  (st.messageHistory, st.messageHistory.length)

/-! ### Serialized event processing (for the ordering claim) -/

/-- One inbound frame together with its sender and ambient data. -/
structure InEv where
  sender : Conn
  ctx : MsgCtx
  data : Inbound
deriving DecidableEq, Repr

/-- Serialized processing of a list of inbound frames: the Durable Object
runtime delivers them one at a time, so the trace of sends is the
concatenation of each handler's sends in acceptance order. -/
def processEvents (sanitize : String → String) (st : RoomState) :
    List InEv → RoomState × List (Nat × Outbound)
  | [] => (st, [])
  | e :: es =>
      let r := webSocketMessage sanitize st e.sender e.ctx e.data
      let rest := processEvents sanitize r.1 es
      (rest.1, r.2 ++ rest.2)

/-- The message ChatEvent a frame is accepted as, if any: the frame is a
`message`, the rate limiter allows it, it is not suspicious, and its
sanitized text does not trim to empty. -/
def acceptedEvent (sanitize : String → String) (st : RoomState) (e : InEv) :
    Option ChatMessage :=
  match e.data with
  | Inbound.message raw =>
      if (checkRateLimit rateLimitConfig e.ctx.now
            (lookupRL st.rateLimitMap e.sender.userId)).1.isAllowed then
        if containsSuspiciousContent raw then none
        else if jsTrim (sanitize raw) = "" then none
        else some (chatEventOf e.sender e.ctx (sanitize raw))
      else none
  | _ => none

/-- The ChatEvents accepted along a serialized trace, in acceptance order. -/
def acceptedList (sanitize : String → String) (st : RoomState) :
    List InEv → List ChatMessage
  | [] => []
  | e :: es =>
      (acceptedEvent sanitize st e).toList ++
        acceptedList sanitize (webSocketMessage sanitize st e.sender e.ctx e.data).1 es

/-- The `message`-kind payload of an outbound send, if it is one. -/
def chatPayload : Outbound → Option ChatMessage
  | Outbound.chat m => some m
  | _ => none

/-- The message ChatEvents delivered to socket `i`, in send order. -/
def deliveredTo (i : Nat) (out : List (Nat × Outbound)) : List ChatMessage :=
  out.filterMap (fun p => if p.1 = i then chatPayload p.2 else none)

/-- The token count after the refill step of facet.ts lines 239-245, before
blocking/consumption: unchanged when no whole increment elapsed, otherwise
increased by `tokensToAdd` and capped at `maxRequests`. -/
def refilledTokens (cfg : RateLimitConfig) (now : Nat) (u : UserRateLimit) : Int :=
  if 0 < tokensToAdd cfg (now - u.lastRefill) then
    min (cfg.maxRequests : Int) (u.tokens + tokensToAdd cfg (now - u.lastRefill))
  else u.tokens

/-! ## Lemmas and claim theorems -/

theorem addToHistory_length_le (cap : Nat) (hist : List ChatMessage) (m : ChatMessage) :
    (addToHistory cap hist m).length ≤ cap ∨ (addToHistory cap hist m) = hist ++ [m] := by
  simp only [addToHistory]
  split
  · left
    simp only [List.length_drop]
    omega
  · right
    rfl

theorem addToHistory_le (cap : Nat) (hist : List ChatMessage) (m : ChatMessage)
    (h : hist.length ≤ cap) : (addToHistory cap hist m).length ≤ cap := by
  simp only [addToHistory]
  split
  · simp only [List.length_drop]
    omega
  · simp only [List.length_append, List.length_singleton, List.length_nil,
      List.length_cons] at *
    omega

theorem foldl_addToHistory (cap : Nat) :
    ∀ (ms acc : List ChatMessage), acc.length ≤ cap →
      List.foldl (addToHistory cap) acc ms = (acc ++ ms).drop ((acc ++ ms).length - cap) := by
  intro ms
  induction ms with
  | nil =>
      intro acc h
      simp only [List.foldl_nil, List.append_nil]
      rw [Nat.sub_eq_zero_of_le h, List.drop_zero]
  | cons m ms ih =>
      intro acc h
      rw [List.foldl_cons, ih _ (addToHistory_le cap acc m h)]
      simp only [addToHistory]
      split
      · rename_i hlt
        rw [← List.drop_append_of_le_length (Nat.sub_le _ _), List.drop_drop,
          List.append_assoc, List.singleton_append]
        congr 1
        simp only [List.length_append, List.length_drop, List.length_cons,
          List.length_singleton, List.length_nil] at hlt ⊢
        omega
      · rename_i hge
        rw [List.append_assoc, List.singleton_append]

/-- C3: with capacity `maxHistorySize = 100`, an append never leaves the
buffer longer than 100; appending to a full buffer evicts exactly the oldest
entry so the length stays 100; and any sequence of appends starting from the
empty buffer leaves exactly the most recent 100 entries in insertion order
(the FIFO suffix of the appended sequence). -/
theorem C3_history_ring (ms hist : List ChatMessage) (m : ChatMessage) :
    (hist.length ≤ maxHistorySize →
      (addToHistory maxHistorySize hist m).length ≤ maxHistorySize)
  ∧ (hist.length = maxHistorySize →
      addToHistory maxHistorySize hist m = hist.tail ++ [m]
        ∧ (addToHistory maxHistorySize hist m).length = maxHistorySize)
  ∧ List.foldl (addToHistory maxHistorySize) [] ms = ms.drop (ms.length - maxHistorySize) := by
  refine ⟨fun h => addToHistory_le _ _ _ h, fun h => ?_, ?_⟩
  · constructor
    · simp only [addToHistory]
      rw [if_pos (by simp [h, maxHistorySize])]
      simp only [List.length_append, List.length_singleton, h]
      have h1 : maxHistorySize + 1 - maxHistorySize = 1 := Nat.add_sub_cancel_left maxHistorySize 1
      rw [h1, List.drop_append_of_le_length (by simp [h, maxHistorySize]), List.drop_one]
    · simp only [addToHistory]
      rw [if_pos (by simp [h, maxHistorySize])]
      simp only [List.length_drop, List.length_append, List.length_singleton, h]
      omega
  · have := foldl_addToHistory maxHistorySize ms [] (by simp)
    simpa using this

theorem C3_history_ring_witness :
    ((List.replicate 100 (ChatMessage.mk "a" "u" "A" "hi" 0 MsgType.message)).length ≤
        maxHistorySize →
      (addToHistory maxHistorySize
          (List.replicate 100 (ChatMessage.mk "a" "u" "A" "hi" 0 MsgType.message))
          (ChatMessage.mk "b" "v" "B" "yo" 1 MsgType.message)).length ≤ maxHistorySize)
  ∧ ((List.replicate 100 (ChatMessage.mk "a" "u" "A" "hi" 0 MsgType.message)).length =
        maxHistorySize →
      addToHistory maxHistorySize
          (List.replicate 100 (ChatMessage.mk "a" "u" "A" "hi" 0 MsgType.message))
          (ChatMessage.mk "b" "v" "B" "yo" 1 MsgType.message) =
        (List.replicate 100 (ChatMessage.mk "a" "u" "A" "hi" 0 MsgType.message)).tail ++
          [ChatMessage.mk "b" "v" "B" "yo" 1 MsgType.message]
        ∧ (addToHistory maxHistorySize
            (List.replicate 100 (ChatMessage.mk "a" "u" "A" "hi" 0 MsgType.message))
            (ChatMessage.mk "b" "v" "B" "yo" 1 MsgType.message)).length = maxHistorySize)
  ∧ List.foldl (addToHistory maxHistorySize) []
        [ChatMessage.mk "a" "u" "A" "hi" 0 MsgType.message] =
      [ChatMessage.mk "a" "u" "A" "hi" 0 MsgType.message].drop
        ([ChatMessage.mk "a" "u" "A" "hi" 0 MsgType.message].length - maxHistorySize) :=
  C3_history_ring [ChatMessage.mk "a" "u" "A" "hi" 0 MsgType.message]
    (List.replicate 100 (ChatMessage.mk "a" "u" "A" "hi" 0 MsgType.message))
    (ChatMessage.mk "b" "v" "B" "yo" 1 MsgType.message)

/-- C8 counterexample: a join on an empty room leaves a `join` ChatEvent in
the very history that the `/history` query returns, and a close leaves a
`leave` ChatEvent there — refuting the claim that join/leave are never
appended to the replayable history. -/
theorem C8_counterexample :
    ((getMessageHistory
        (handleWebSocket (RoomState.mk [] [] []) 1 "u" "Ann" (MsgCtx.mk 0 "j1")).1).1.map
      (fun m => m.type)) = [MsgType.join]
  ∧ ((webSocketClose (RoomState.mk [] [] []) (Conn.mk 1 "u" "Ann") (MsgCtx.mk 0 "l1")).1.messageHistory.map
      (fun m => m.type)) = [MsgType.leave] := by
  constructor <;> decide

/-- C8 amended: joins and leaves are broadcast live, and they are also
appended to the same `messageHistory` buffer that the `/history` query and
the connect-time replay read, with their `join`/`leave` kind retained. -/
theorem C8_join_leave_persisted (st : RoomState) (sockId : Nat)
    (userId rawUsername : String) (ctx : MsgCtx) (ws : Conn) (ctx' : MsgCtx) :
    (handleWebSocket st sockId userId rawUsername ctx).1.messageHistory =
      addToHistory maxHistorySize st.messageHistory
        (joinEvent (Conn.mk sockId userId (sanitizeUsername rawUsername)) ctx)
  ∧ (joinEvent (Conn.mk sockId userId (sanitizeUsername rawUsername)) ctx).type = MsgType.join
  ∧ (getMessageHistory (handleWebSocket st sockId userId rawUsername ctx).1).1 =
      (handleWebSocket st sockId userId rawUsername ctx).1.messageHistory
  ∧ (webSocketClose st ws ctx').1.messageHistory =
      addToHistory maxHistorySize st.messageHistory (leaveEvent ws ctx')
  ∧ (leaveEvent ws ctx').type = MsgType.leave :=
  ⟨rfl, rfl, rfl, rfl, rfl⟩

/-- C9 counterexample: with the default configuration (refill increment
`windowMs / maxRequests = 2000` ms) and 3000 ms elapsed, exactly one token is
added, but the code sets `lastRefill` to `now = 3000` instead of advancing it
by `1 * 2000`: the 1000 ms fractional remainder is discarded, not retained. -/
theorem C9_counterexample :
    tokensToAdd rateLimitConfig 3000 = 1
  ∧ rateLimitConfig.windowMs / rateLimitConfig.maxRequests = 2000
  ∧ (checkRateLimit rateLimitConfig 3000
      (some (UserRateLimit.mk 5 0 none))).2.lastRefill = 3000
  ∧ ¬((checkRateLimit rateLimitConfig 3000
      (some (UserRateLimit.mk 5 0 none))).2.lastRefill = 0 + 1 * 2000) := by
  refine ⟨by decide, by decide, by decide, by decide⟩

/-- C9 amended: for a non-blocked check the code adds exactly
`floor(timePassed / (windowMs / maxRequests))` tokens capped at
`maxRequests`, then blocks or consumes one token; but whenever at least one
token is added it sets `lastRefillAt` to `now`, consuming the entire elapsed
time and discarding the fractional remainder (only when no whole increment
elapsed is `lastRefillAt` left unchanged, so only then is partial elapsed
time retained). -/
theorem C9_refill_semantics (cfg : RateLimitConfig) (now : Nat) (u : UserRateLimit)
    (hb : u.blockedUntil = none) :
    ((checkRateLimit cfg now (some u)).1 =
      if refilledTokens cfg now u ≤ 0 then
        RateLimitResult.blocked (now + cfg.blockDurationMs)
      else RateLimitResult.allowed (refilledTokens cfg now u - 1))
  ∧ ((checkRateLimit cfg now (some u)).2.tokens =
      if refilledTokens cfg now u ≤ 0 then refilledTokens cfg now u
      else refilledTokens cfg now u - 1)
  ∧ ((checkRateLimit cfg now (some u)).2.lastRefill =
      if 0 < tokensToAdd cfg (now - u.lastRefill) then now else u.lastRefill)
  ∧ (u.tokens ≤ (cfg.maxRequests : Int) →
      refilledTokens cfg now u ≤ (cfg.maxRequests : Int)) := by
  have hexp : checkRateLimit cfg now (some u) = checkRefillAndConsume cfg now u := by
    simp [checkRateLimit, hb]
  refine ⟨?_, ?_, ?_, ?_⟩
  · rw [hexp]
    simp only [checkRefillAndConsume, refilledTokens]
    split <;> split <;> simp_all
  · rw [hexp]
    simp only [checkRefillAndConsume, refilledTokens]
    split <;> split <;> simp_all
  · rw [hexp]
    simp only [checkRefillAndConsume, refilledTokens]
    split <;> split <;> simp_all
  · intro hcap
    simp only [refilledTokens]
    split
    · exact min_le_left _ _
    · exact hcap

theorem C9_refill_semantics_witness :
    ((checkRateLimit rateLimitConfig 3000 (some (UserRateLimit.mk 5 0 none))).1 =
      if refilledTokens rateLimitConfig 3000 (UserRateLimit.mk 5 0 none) ≤ 0 then
        RateLimitResult.blocked (3000 + rateLimitConfig.blockDurationMs)
      else RateLimitResult.allowed
        (refilledTokens rateLimitConfig 3000 (UserRateLimit.mk 5 0 none) - 1))
  ∧ ((checkRateLimit rateLimitConfig 3000 (some (UserRateLimit.mk 5 0 none))).2.tokens =
      if refilledTokens rateLimitConfig 3000 (UserRateLimit.mk 5 0 none) ≤ 0 then
        refilledTokens rateLimitConfig 3000 (UserRateLimit.mk 5 0 none)
      else refilledTokens rateLimitConfig 3000 (UserRateLimit.mk 5 0 none) - 1)
  ∧ ((checkRateLimit rateLimitConfig 3000 (some (UserRateLimit.mk 5 0 none))).2.lastRefill =
      if 0 < tokensToAdd rateLimitConfig (3000 - (UserRateLimit.mk 5 0 none).lastRefill) then 3000
      else (UserRateLimit.mk 5 0 none).lastRefill)
  ∧ ((UserRateLimit.mk 5 0 none).tokens ≤ (rateLimitConfig.maxRequests : Int) →
      refilledTokens rateLimitConfig 3000 (UserRateLimit.mk 5 0 none) ≤
        (rateLimitConfig.maxRequests : Int)) :=
  C9_refill_semantics rateLimitConfig 3000 (UserRateLimit.mk 5 0 none) rfl

theorem lookupRL_setRL (m : List (String × UserRateLimit)) (k : String) (v : UserRateLimit) :
    lookupRL (setRL m k v) k = some v := by
  induction m with
  | nil => simp [lookupRL, setRL]
  | cons p t ih =>
      obtain ⟨k', v'⟩ := p
      simp only [setRL]
      split
      · simp [lookupRL]
      · rename_i hne
        simp only [Bool.not_eq_true] at hne
        simp only [lookupRL, List.find?] at ih ⊢
        rw [hne]
        exact ih

/-- C7 counterexample: a `ping` from a user never seen before creates (and
consumes from) that user's rate-limit entry — the rate-limit state is
mutated; and a `ping` from a blocked user is answered with
`rate_limit_exceeded`, not `pong`. -/
theorem C7_counterexample :
    (webSocketMessage (fun s => s) (RoomState.mk [Conn.mk 1 "u1" "Ann"] [] [])
        (Conn.mk 1 "u1" "Ann") (MsgCtx.mk 0 "m1") Inbound.ping).1.rateLimitMap =
      [("u1", UserRateLimit.mk 29 0 none)]
  ∧ ¬((webSocketMessage (fun s => s) (RoomState.mk [Conn.mk 1 "u1" "Ann"] [] [])
        (Conn.mk 1 "u1" "Ann") (MsgCtx.mk 0 "m1") Inbound.ping).1.rateLimitMap =
      (RoomState.mk [Conn.mk 1 "u1" "Ann"] [] []).rateLimitMap)
  ∧ (webSocketMessage (fun s => s)
        (RoomState.mk [Conn.mk 1 "u1" "Ann"] [] [("u1", UserRateLimit.mk 0 0 (some 100))])
        (Conn.mk 1 "u1" "Ann") (MsgCtx.mk 50 "m2") Inbound.ping).2 =
      [(1, Outbound.rateLimitExceeded 100 1)] := by
  refine ⟨by decide, by decide, by decide⟩

/-- C7 amended: an inbound `ping` first consults the rate limiter, consuming
one token and writing the updated entry back (so the rate-limit state is
mutated); when the check allows, the room unicasts a `pong` to the sender
only, with no broadcast, no history change and no change to the socket set.
(When the sender is blocked, a `rate_limit_exceeded` notice is unicast
instead of a `pong`.) -/
theorem C7_ping_consumes_token (sanitize : String → String) (st : RoomState) (ws : Conn)
    (ctx : MsgCtx)
    (h : (checkRateLimit rateLimitConfig ctx.now
            (lookupRL st.rateLimitMap ws.userId)).1.isAllowed = true) :
    (webSocketMessage sanitize st ws ctx Inbound.ping).2 = [(ws.id, Outbound.pong)]
  ∧ (webSocketMessage sanitize st ws ctx Inbound.ping).1.messageHistory = st.messageHistory
  ∧ (webSocketMessage sanitize st ws ctx Inbound.ping).1.sockets = st.sockets
  ∧ (webSocketMessage sanitize st ws ctx Inbound.ping).1.rateLimitMap =
      setRL st.rateLimitMap ws.userId
        (checkRateLimit rateLimitConfig ctx.now (lookupRL st.rateLimitMap ws.userId)).2
  ∧ lookupRL (webSocketMessage sanitize st ws ctx Inbound.ping).1.rateLimitMap ws.userId =
      some (checkRateLimit rateLimitConfig ctx.now (lookupRL st.rateLimitMap ws.userId)).2 := by
  obtain ⟨r, hr⟩ : ∃ r,
      (checkRateLimit rateLimitConfig ctx.now (lookupRL st.rateLimitMap ws.userId)).1 =
        RateLimitResult.allowed r := by
    cases hx : (checkRateLimit rateLimitConfig ctx.now (lookupRL st.rateLimitMap ws.userId)).1 with
    | allowed r => exact ⟨r, rfl⟩
    | blocked b => rw [hx] at h; simp [RateLimitResult.isAllowed] at h
  simp [webSocketMessage, hr, lookupRL_setRL]

theorem C7_ping_consumes_token_witness :
    (webSocketMessage (fun s => s) (RoomState.mk [Conn.mk 1 "u1" "Ann"] [] [])
        (Conn.mk 1 "u1" "Ann") (MsgCtx.mk 0 "m1") Inbound.ping).2 =
      [((Conn.mk 1 "u1" "Ann").id, Outbound.pong)]
  ∧ (webSocketMessage (fun s => s) (RoomState.mk [Conn.mk 1 "u1" "Ann"] [] [])
        (Conn.mk 1 "u1" "Ann") (MsgCtx.mk 0 "m1") Inbound.ping).1.messageHistory =
      (RoomState.mk [Conn.mk 1 "u1" "Ann"] [] []).messageHistory
  ∧ (webSocketMessage (fun s => s) (RoomState.mk [Conn.mk 1 "u1" "Ann"] [] [])
        (Conn.mk 1 "u1" "Ann") (MsgCtx.mk 0 "m1") Inbound.ping).1.sockets =
      (RoomState.mk [Conn.mk 1 "u1" "Ann"] [] []).sockets
  ∧ (webSocketMessage (fun s => s) (RoomState.mk [Conn.mk 1 "u1" "Ann"] [] [])
        (Conn.mk 1 "u1" "Ann") (MsgCtx.mk 0 "m1") Inbound.ping).1.rateLimitMap =
      setRL (RoomState.mk [Conn.mk 1 "u1" "Ann"] [] []).rateLimitMap
        (Conn.mk 1 "u1" "Ann").userId
        (checkRateLimit rateLimitConfig (MsgCtx.mk 0 "m1").now
          (lookupRL (RoomState.mk [Conn.mk 1 "u1" "Ann"] [] []).rateLimitMap
            (Conn.mk 1 "u1" "Ann").userId)).2
  ∧ lookupRL
      (webSocketMessage (fun s => s) (RoomState.mk [Conn.mk 1 "u1" "Ann"] [] [])
        (Conn.mk 1 "u1" "Ann") (MsgCtx.mk 0 "m1") Inbound.ping).1.rateLimitMap
      (Conn.mk 1 "u1" "Ann").userId =
      some (checkRateLimit rateLimitConfig (MsgCtx.mk 0 "m1").now
        (lookupRL (RoomState.mk [Conn.mk 1 "u1" "Ann"] [] []).rateLimitMap
          (Conn.mk 1 "u1" "Ann").userId)).2 :=
  C7_ping_consumes_token (fun s => s) (RoomState.mk [Conn.mk 1 "u1" "Ann"] [] [])
    (Conn.mk 1 "u1" "Ann") (MsgCtx.mk 0 "m1") (by decide)

theorem broadcastMessage_none (st : RoomState) (m : ChatMessage) :
    broadcastMessage st m none = st.sockets.map (fun s => (s.id, Outbound.chat m)) := by
  unfold broadcastMessage
  congr 1
  exact List.filter_eq_self.mpr (fun a _ => rfl)

/-- C5: when the rate limiter allows the frame but the raw text is flagged
by `containsSuspiciousContent`, the room sends exactly one `error` notice to
the sender and stops — no chat payload is sent to anyone and the history is
unchanged. -/
theorem C5_suspicious_blocked (sanitize : String → String) (st : RoomState) (ws : Conn)
    (ctx : MsgCtx) (raw : String)
    (h : (checkRateLimit rateLimitConfig ctx.now
            (lookupRL st.rateLimitMap ws.userId)).1.isAllowed = true)
    (hsus : containsSuspiciousContent raw = true) :
    (webSocketMessage sanitize st ws ctx (Inbound.message raw)).2 =
      [(ws.id, Outbound.errorNote
          "Message contains potentially harmful content and was blocked.")]
  ∧ (webSocketMessage sanitize st ws ctx (Inbound.message raw)).1.messageHistory =
      st.messageHistory
  ∧ ∀ p ∈ (webSocketMessage sanitize st ws ctx (Inbound.message raw)).2,
      chatPayload p.2 = none := by
  obtain ⟨r, hr⟩ : ∃ r,
      (checkRateLimit rateLimitConfig ctx.now (lookupRL st.rateLimitMap ws.userId)).1 =
        RateLimitResult.allowed r := by
    cases hx : (checkRateLimit rateLimitConfig ctx.now (lookupRL st.rateLimitMap ws.userId)).1 with
    | allowed r => exact ⟨r, rfl⟩
    | blocked b => rw [hx] at h; simp [RateLimitResult.isAllowed] at h
  refine ⟨?_, ?_, ?_⟩ <;> simp [webSocketMessage, hr, hsus, chatPayload]

theorem C5_suspicious_blocked_witness :
    (webSocketMessage (fun s => s) (RoomState.mk [Conn.mk 1 "u1" "Carl"] [] [])
        (Conn.mk 1 "u1" "Carl") (MsgCtx.mk 0 "m1")
        (Inbound.message "<script>alert(1)</script>")).2 =
      [((Conn.mk 1 "u1" "Carl").id, Outbound.errorNote
          "Message contains potentially harmful content and was blocked.")]
  ∧ (webSocketMessage (fun s => s) (RoomState.mk [Conn.mk 1 "u1" "Carl"] [] [])
        (Conn.mk 1 "u1" "Carl") (MsgCtx.mk 0 "m1")
        (Inbound.message "<script>alert(1)</script>")).1.messageHistory =
      (RoomState.mk [Conn.mk 1 "u1" "Carl"] [] []).messageHistory
  ∧ ∀ p ∈ (webSocketMessage (fun s => s) (RoomState.mk [Conn.mk 1 "u1" "Carl"] [] [])
        (Conn.mk 1 "u1" "Carl") (MsgCtx.mk 0 "m1")
        (Inbound.message "<script>alert(1)</script>")).2,
      chatPayload p.2 = none :=
  C5_suspicious_blocked (fun s => s) (RoomState.mk [Conn.mk 1 "u1" "Carl"] [] [])
    (Conn.mk 1 "u1" "Carl") (MsgCtx.mk 0 "m1") "<script>alert(1)</script>"
    (by decide) (by decide)

/-- C4: a message that passes the rate limit and the suspicious-content
check and whose sanitized text does not trim to empty is turned into a
`message` ChatEvent carrying the fresh id, the current timestamp and the
sanitized text; it is broadcast to every connected socket with no exclusion
(in particular the sender receives it) and appended to the history buffer. -/
theorem C4_accepted_message (sanitize : String → String) (st : RoomState) (ws : Conn)
    (ctx : MsgCtx) (raw : String)
    (h : (checkRateLimit rateLimitConfig ctx.now
            (lookupRL st.rateLimitMap ws.userId)).1.isAllowed = true)
    (hsus : containsSuspiciousContent raw = false)
    (hne : ¬(jsTrim (sanitize raw) = ""))
    (hmem : ws ∈ st.sockets) :
    (webSocketMessage sanitize st ws ctx (Inbound.message raw)).2 =
      st.sockets.map (fun s => (s.id, Outbound.chat (chatEventOf ws ctx (sanitize raw))))
  ∧ (webSocketMessage sanitize st ws ctx (Inbound.message raw)).1.messageHistory =
      addToHistory maxHistorySize st.messageHistory (chatEventOf ws ctx (sanitize raw))
  ∧ (ws.id, Outbound.chat (chatEventOf ws ctx (sanitize raw))) ∈
      (webSocketMessage sanitize st ws ctx (Inbound.message raw)).2
  ∧ (chatEventOf ws ctx (sanitize raw)).id = ctx.freshId
  ∧ (chatEventOf ws ctx (sanitize raw)).timestamp = ctx.now
  ∧ (chatEventOf ws ctx (sanitize raw)).message = sanitize raw
  ∧ (chatEventOf ws ctx (sanitize raw)).type = MsgType.message := by
  obtain ⟨r, hr⟩ : ∃ r,
      (checkRateLimit rateLimitConfig ctx.now (lookupRL st.rateLimitMap ws.userId)).1 =
        RateLimitResult.allowed r := by
    cases hx : (checkRateLimit rateLimitConfig ctx.now (lookupRL st.rateLimitMap ws.userId)).1 with
    | allowed r => exact ⟨r, rfl⟩
    | blocked b => rw [hx] at h; simp [RateLimitResult.isAllowed] at h
  have hout : (webSocketMessage sanitize st ws ctx (Inbound.message raw)).2 =
      st.sockets.map (fun s => (s.id, Outbound.chat (chatEventOf ws ctx (sanitize raw)))) := by
    simp only [webSocketMessage, hr, hsus]
    rw [if_neg (by simp), if_neg hne]
    exact broadcastMessage_none _ _
  refine ⟨hout, ?_, ?_, rfl, rfl, rfl, rfl⟩
  · simp [webSocketMessage, hr, hsus, hne]
  · rw [hout]
    exact List.mem_map.mpr ⟨ws, hmem, rfl⟩

theorem C4_accepted_message_witness :
    (webSocketMessage (fun s => s) (RoomState.mk [Conn.mk 1 "u1" "Ann", Conn.mk 2 "u2" "Bea"] [] [])
        (Conn.mk 1 "u1" "Ann") (MsgCtx.mk 0 "m1") (Inbound.message "hello")).2 =
      (RoomState.mk [Conn.mk 1 "u1" "Ann", Conn.mk 2 "u2" "Bea"] [] []).sockets.map
        (fun s => (s.id, Outbound.chat
          (chatEventOf (Conn.mk 1 "u1" "Ann") (MsgCtx.mk 0 "m1") ((fun s => s) "hello"))))
  ∧ (webSocketMessage (fun s => s) (RoomState.mk [Conn.mk 1 "u1" "Ann", Conn.mk 2 "u2" "Bea"] [] [])
        (Conn.mk 1 "u1" "Ann") (MsgCtx.mk 0 "m1") (Inbound.message "hello")).1.messageHistory =
      addToHistory maxHistorySize
        (RoomState.mk [Conn.mk 1 "u1" "Ann", Conn.mk 2 "u2" "Bea"] [] []).messageHistory
        (chatEventOf (Conn.mk 1 "u1" "Ann") (MsgCtx.mk 0 "m1") ((fun s => s) "hello"))
  ∧ ((Conn.mk 1 "u1" "Ann").id, Outbound.chat
        (chatEventOf (Conn.mk 1 "u1" "Ann") (MsgCtx.mk 0 "m1") ((fun s => s) "hello"))) ∈
      (webSocketMessage (fun s => s) (RoomState.mk [Conn.mk 1 "u1" "Ann", Conn.mk 2 "u2" "Bea"] [] [])
        (Conn.mk 1 "u1" "Ann") (MsgCtx.mk 0 "m1") (Inbound.message "hello")).2
  ∧ (chatEventOf (Conn.mk 1 "u1" "Ann") (MsgCtx.mk 0 "m1") ((fun s => s) "hello")).id =
      (MsgCtx.mk 0 "m1").freshId
  ∧ (chatEventOf (Conn.mk 1 "u1" "Ann") (MsgCtx.mk 0 "m1") ((fun s => s) "hello")).timestamp =
      (MsgCtx.mk 0 "m1").now
  ∧ (chatEventOf (Conn.mk 1 "u1" "Ann") (MsgCtx.mk 0 "m1") ((fun s => s) "hello")).message =
      (fun s => s) "hello"
  ∧ (chatEventOf (Conn.mk 1 "u1" "Ann") (MsgCtx.mk 0 "m1") ((fun s => s) "hello")).type =
      MsgType.message :=
  C4_accepted_message (fun s => s)
    (RoomState.mk [Conn.mk 1 "u1" "Ann", Conn.mk 2 "u2" "Bea"] [] [])
    (Conn.mk 1 "u1" "Ann") (MsgCtx.mk 0 "m1") "hello"
    (by decide) (by decide) (by decide) (by decide)

theorem filter_excl_of_fresh (l : List Conn) (i : Nat) (h : ∀ s ∈ l, s.id ≠ i) :
    l.filter (fun s => !((some i : Option Nat) == some s.id)) = l :=
  List.filter_eq_self.mpr (fun a ha => by
    have hne : i ≠ a.id := fun he => h a ha he.symm
    simp [hne])

theorem broadcastWithUserCount_append_excl (st : RoomState) (c : Conn)
    (m : ChatMessage) (h : ∀ s ∈ st.sockets, s.id ≠ c.id) :
    broadcastWithUserCount
        (RoomState.mk (st.sockets ++ [c]) st.messageHistory st.rateLimitMap) m (some c.id) =
      st.sockets.map (fun s => (s.id, Outbound.chatWithUsers m
        (getOnlineUsers (RoomState.mk (st.sockets ++ [c]) st.messageHistory st.rateLimitMap)))) := by
  unfold broadcastWithUserCount
  congr 1
  show (st.sockets ++ [c]).filter (fun s => !((some c.id : Option Nat) == some s.id)) = st.sockets
  rw [List.filter_append, filter_excl_of_fresh _ _ h]
  simp

/-- C6: accepting a new connection produces, in this order, (a) a unicast
`system` welcome to the new socket with the online-usernames snapshot, (b)
exactly when the prior history is non-empty, a unicast `history` payload of
at most the last 20 retained events plus the snapshot, and (c) a `join`
ChatEvent broadcast with the refreshed snapshot to every other active
connection, excluding the new one; with 95 prior entries the history payload
is exactly the last 20 of them. -/
theorem C6_connect_side_effects (st : RoomState) (sockId : Nat)
    (userId rawUsername : String) (ctx : MsgCtx)
    (hfresh : ∀ s ∈ st.sockets, s.id ≠ sockId) :
    (handleWebSocket st sockId userId rawUsername ctx).2 =
      [(sockId, Outbound.system
          ("Welcome to the facet, " ++ sanitizeUsername rawUsername ++ "!") ctx.now
          (getOnlineUsers (RoomState.mk
            (st.sockets ++ [Conn.mk sockId userId (sanitizeUsername rawUsername)])
            st.messageHistory st.rateLimitMap)))]
      ++ (if 0 < st.messageHistory.length then
            [(sockId, Outbound.history
                (st.messageHistory.drop (st.messageHistory.length - 20))
                (getOnlineUsers (RoomState.mk
                  (st.sockets ++ [Conn.mk sockId userId (sanitizeUsername rawUsername)])
                  st.messageHistory st.rateLimitMap)))]
          else [])
      ++ st.sockets.map (fun s => (s.id, Outbound.chatWithUsers
            (joinEvent (Conn.mk sockId userId (sanitizeUsername rawUsername)) ctx)
            (getOnlineUsers (RoomState.mk
              (st.sockets ++ [Conn.mk sockId userId (sanitizeUsername rawUsername)])
              st.messageHistory st.rateLimitMap))))
  ∧ (joinEvent (Conn.mk sockId userId (sanitizeUsername rawUsername)) ctx).type = MsgType.join
  ∧ (st.messageHistory.drop (st.messageHistory.length - 20)).length =
      min 20 st.messageHistory.length
  ∧ (st.messageHistory.length = 95 →
      st.messageHistory.drop (st.messageHistory.length - 20) = st.messageHistory.drop 75) := by
  refine ⟨?_, rfl, ?_, ?_⟩
  · show ([(sockId, Outbound.system
        ("Welcome to the facet, " ++ sanitizeUsername rawUsername ++ "!") ctx.now
        (getOnlineUsers (RoomState.mk
          (st.sockets ++ [Conn.mk sockId userId (sanitizeUsername rawUsername)])
          st.messageHistory st.rateLimitMap)))]
      ++ _ ++ broadcastWithUserCount _ _ _) = _
    rw [broadcastWithUserCount_append_excl st
      (Conn.mk sockId userId (sanitizeUsername rawUsername))
      (joinEvent (Conn.mk sockId userId (sanitizeUsername rawUsername)) ctx) hfresh]
  · simp only [List.length_drop]
    omega
  · intro h95
    rw [h95]

theorem C6_connect_side_effects_witness :
    (handleWebSocket
        (RoomState.mk [Conn.mk 1 "u0" "Ann"]
          [ChatMessage.mk "h0" "u0" "Ann" "hi" 0 MsgType.message] [])
        2 "u2" "Bob" (MsgCtx.mk 5 "j")).2 =
      [(2, Outbound.system "Welcome to the facet, Bob!" 5 ["Ann", "Bob"]),
       (2, Outbound.history [ChatMessage.mk "h0" "u0" "Ann" "hi" 0 MsgType.message]
          ["Ann", "Bob"]),
       (1, Outbound.chatWithUsers
          (ChatMessage.mk "j" "u2" "Bob" "Bob joined the facet" 5 MsgType.join)
          ["Ann", "Bob"])] :=
  ((C6_connect_side_effects
      (RoomState.mk [Conn.mk 1 "u0" "Ann"]
        [ChatMessage.mk "h0" "u0" "Ann" "hi" 0 MsgType.message] [])
      2 "u2" "Bob" (MsgCtx.mk 5 "j") (by decide)).1).trans (by decide)

theorem tokensToAdd_zero (cfg : RateLimitConfig) : tokensToAdd cfg 0 = 0 := by
  simp [tokensToAdd]

theorem check_same_time (t0 : Nat) (k : Int) :
    checkRateLimit rateLimitConfig t0 (some (UserRateLimit.mk k t0 none)) =
      if k ≤ 0 then
        (RateLimitResult.blocked (t0 + 60000), UserRateLimit.mk k t0 (some (t0 + 60000)))
      else (RateLimitResult.allowed (k - 1), UserRateLimit.mk (k - 1) t0 none) := by
  simp only [checkRateLimit, checkRefillAndConsume, Nat.sub_self, tokensToAdd_zero,
    lt_self_iff_false, if_false]
  split <;> simp [rateLimitConfig]

theorem check_blocked_noop (cfg : RateLimitConfig) (now b : Nat) (u : UserRateLimit)
    (hb : u.blockedUntil = some b) (h : now < b) :
    checkRateLimit cfg now (some u) = (RateLimitResult.blocked b, u) := by
  simp [checkRateLimit, hb, h]

theorem check_after_expiry (m b : Nat) (u : UserRateLimit) (hb : u.blockedUntil = some b)
    (h : b ≤ m) :
    checkRateLimit rateLimitConfig m (some u) =
      (RateLimitResult.allowed 29, UserRateLimit.mk 29 m none) := by
  simp only [checkRateLimit, hb]
  rw [if_neg (Nat.not_lt.mpr h)]
  simp only [checkRefillAndConsume, Nat.sub_self, tokensToAdd_zero, lt_self_iff_false,
    if_false]
  norm_num [rateLimitConfig]

theorem iterCheck_blocked (cfg : RateLimitConfig) (now b : Nat) (u : UserRateLimit)
    (hb : u.blockedUntil = some b) (h : now < b) :
    ∀ n, iterCheck cfg now n (some u) =
      ((List.range n).map (fun _ => RateLimitResult.blocked b), some u) := by
  intro n
  induction n with
  | zero => simp [iterCheck]
  | succ n ih =>
      simp only [iterCheck, check_blocked_noop cfg now b u hb h, ih,
        List.range_succ_eq_map, List.map_cons, List.map_map, Function.comp]
      rfl

theorem iterCheck_closed (t0 : Nat) :
    ∀ (n : Nat) (k : Int), 0 ≤ k →
      iterCheck rateLimitConfig t0 n (some (UserRateLimit.mk k t0 none)) =
        ((List.range n).map (fun (i : Nat) =>
            if (i : Int) < k then RateLimitResult.allowed (k - 1 - (i : Int))
            else RateLimitResult.blocked (t0 + 60000)),
         if (n : Int) ≤ k then some (UserRateLimit.mk (k - (n : Int)) t0 none)
         else some (UserRateLimit.mk 0 t0 (some (t0 + 60000)))) := by
  intro n
  induction n with
  | zero =>
      intro k hk
      rw [if_pos (by exact_mod_cast hk)]
      simp [iterCheck]
  | succ n ih =>
      intro k hk
      rcases eq_or_lt_of_le hk with heq | hpos
      · subst heq
        simp only [iterCheck, check_same_time t0 0, if_pos le_rfl]
        rw [iterCheck_blocked rateLimitConfig t0 (t0 + 60000) _ rfl (by omega) n]
        rw [if_neg (by push_cast; omega)]
        refine Prod.ext ?_ rfl
        show RateLimitResult.blocked (t0 + 60000) ::
          (List.range n).map (fun _ => RateLimitResult.blocked (t0 + 60000)) = _
        rw [List.map_congr_left
          (fun (i : Nat) _ => if_neg (by omega : ¬ ((i : Int) < 0)))]
        rw [List.range_succ_eq_map, List.map_cons, List.map_map]
        rfl
      · simp only [iterCheck, check_same_time t0 k, if_neg (by omega : ¬ k ≤ 0)]
        rw [ih (k - 1) (by omega)]
        refine Prod.ext ?_ ?_
        · show RateLimitResult.allowed (k - 1) :: (List.range n).map _ = _
          rw [List.range_succ_eq_map, List.map_cons, List.map_map]
          refine congrArg₂ _ ?_ ?_
          · rw [if_pos (by exact_mod_cast hpos)]
            norm_num
          · refine List.map_congr_left (fun (i : Nat) _ => ?_)
            show (if ((i : Int)) < k - 1 then RateLimitResult.allowed (k - 1 - 1 - (i : Int))
                else RateLimitResult.blocked (t0 + 60000)) =
              (if (((i + 1 : Nat)) : Int) < k then
                RateLimitResult.allowed (k - 1 - ((i + 1 : Nat) : Int))
              else RateLimitResult.blocked (t0 + 60000))
            by_cases hc : (i : Int) < k - 1
            · rw [if_pos hc, if_pos (by push_cast; omega)]
              refine congrArg _ (by push_cast; omega)
            · rw [if_neg hc, if_neg (by push_cast; omega)]
        · show _ = if (((n + 1 : Nat)) : Int) ≤ k then _ else _
          by_cases hc : (n : Int) ≤ k - 1
          · rw [if_pos hc, if_pos (by omega : (((n + 1 : Nat)) : Int) ≤ k)]
            have hval : k - 1 - (n : Int) = k - ((n + 1 : Nat) : Int) := by push_cast; omega
            rw [hval]
          · rw [if_neg hc, if_neg (by omega : ¬ (((n + 1 : Nat)) : Int) ≤ k)]

theorem check_first_sight (t0 : Nat) :
    checkRateLimit rateLimitConfig t0 none =
      (RateLimitResult.allowed 29, UserRateLimit.mk 29 t0 none) := by
  norm_num [checkRateLimit, rateLimitConfig]

/-- C2: with the default configuration, a burst of `n ≥ 31` checks for one
fresh userId at a single instant `t0` yields Allowed for the first 30 calls
(with descending remaining tokens) and Blocked-until `t0 + 60000` for every
call thereafter; any further call before `t0 + 60000` stays Blocked, and the
first call at or after `t0 + 60000` is Allowed again with the bucket reset
to `maxTokens` (29 remaining after the call consumes one). -/
theorem C2_rate_limit_burst (t0 n : Nat) (hn : 31 ≤ n) :
    (iterCheck rateLimitConfig t0 n none).1 =
      (List.range n).map (fun (i : Nat) =>
        if i < 30 then RateLimitResult.allowed (29 - (i : Int))
        else RateLimitResult.blocked (t0 + 60000))
  ∧ (∀ m : Nat, m < t0 + 60000 →
      (checkRateLimit rateLimitConfig m (iterCheck rateLimitConfig t0 n none).2).1 =
        RateLimitResult.blocked (t0 + 60000))
  ∧ (∀ m : Nat, t0 + 60000 ≤ m →
      checkRateLimit rateLimitConfig m (iterCheck rateLimitConfig t0 n none).2 =
        (RateLimitResult.allowed 29, UserRateLimit.mk 29 m none)) := by
  obtain ⟨n', rfl⟩ : ∃ n', n = n' + 1 := ⟨n - 1, by omega⟩
  have hstep : iterCheck rateLimitConfig t0 (n' + 1) none =
      ((RateLimitResult.allowed 29) :: (iterCheck rateLimitConfig t0 n'
          (some (UserRateLimit.mk 29 t0 none))).1,
        (iterCheck rateLimitConfig t0 n' (some (UserRateLimit.mk 29 t0 none))).2) := by
    simp only [iterCheck, check_first_sight t0]
  have hclosed := iterCheck_closed t0 n' 29 (by omega)
  have hstate : (iterCheck rateLimitConfig t0 (n' + 1) none).2 =
      some (UserRateLimit.mk 0 t0 (some (t0 + 60000))) := by
    rw [hstep, hclosed]
    simp only
    rw [if_neg (by omega : ¬ ((n' : Nat) : Int) ≤ 29)]
  refine ⟨?_, ?_, ?_⟩
  · rw [hstep]
    simp only [hclosed]
    rw [List.range_succ_eq_map, List.map_cons, List.map_map]
    refine congrArg₂ _ (by norm_num) ?_
    refine List.map_congr_left (fun (i : Nat) _ => ?_)
    show (if ((i : Int)) < 29 then RateLimitResult.allowed (29 - 1 - (i : Int))
        else RateLimitResult.blocked (t0 + 60000)) =
      (if (i + 1 : Nat) < 30 then RateLimitResult.allowed (29 - ((i + 1 : Nat) : Int))
        else RateLimitResult.blocked (t0 + 60000))
    by_cases hc : (i : Int) < 29
    · rw [if_pos hc, if_pos (by omega : (i + 1 : Nat) < 30)]
      have hval : (29 : Int) - 1 - (i : Int) = 29 - ((i + 1 : Nat) : Int) := by
        push_cast; omega
      rw [hval]
    · rw [if_neg hc, if_neg (by omega : ¬ (i + 1 : Nat) < 30)]
  · intro m hm
    rw [hstate, check_blocked_noop rateLimitConfig m (t0 + 60000) _ rfl hm]
  · intro m hm
    rw [hstate, check_after_expiry m (t0 + 60000) _ rfl hm]

theorem C2_rate_limit_burst_witness :
    (iterCheck rateLimitConfig 0 31 none).1 =
      (List.range 31).map (fun (i : Nat) =>
        if i < 30 then RateLimitResult.allowed (29 - (i : Int))
        else RateLimitResult.blocked (0 + 60000))
  ∧ (checkRateLimit rateLimitConfig 30000 (iterCheck rateLimitConfig 0 31 none).2).1 =
      RateLimitResult.blocked (0 + 60000)
  ∧ checkRateLimit rateLimitConfig 60000 (iterCheck rateLimitConfig 0 31 none).2 =
      (RateLimitResult.allowed 29, UserRateLimit.mk 29 60000 none) := by
  have h := C2_rate_limit_burst 0 31 (by decide)
  exact ⟨h.1, h.2.1 30000 (by decide), h.2.2 60000 (by decide)⟩

theorem webSocketMessage_sockets (sanitize : String → String) (st : RoomState) (ws : Conn)
    (ctx : MsgCtx) (data : Inbound) :
    (webSocketMessage sanitize st ws ctx data).1.sockets = st.sockets := by
  simp only [webSocketMessage]
  split
  · rfl
  · split
    · split
      · rfl
      · split <;> rfl
    · rfl
    · rfl

theorem deliveredTo_append (i : Nat) (out1 out2 : List (Nat × Outbound)) :
    deliveredTo i (out1 ++ out2) = deliveredTo i out1 ++ deliveredTo i out2 := by
  simp [deliveredTo]

theorem deliveredTo_broadcast_not_mem (l : List Conn) (i : Nat) (m : ChatMessage)
    (h : i ∉ l.map (fun s => s.id)) :
    deliveredTo i (l.map (fun s => (s.id, Outbound.chat m))) = [] := by
  induction l with
  | nil => rfl
  | cons s t ih =>
      simp only [List.map_cons, List.mem_cons, not_or] at h
      simp only [List.map_cons, deliveredTo, List.filterMap_cons]
      rw [if_neg (fun he => h.1 he.symm)]
      exact ih h.2

theorem deliveredTo_broadcast (l : List Conn) (c : Conn) (m : ChatMessage)
    (hn : (l.map (fun s => s.id)).Nodup) (hc : c ∈ l) :
    deliveredTo c.id (l.map (fun s => (s.id, Outbound.chat m))) = [m] := by
  induction l with
  | nil => cases hc
  | cons s t ih =>
      rw [List.map_cons, List.nodup_cons] at hn
      rcases List.mem_cons.mp hc with rfl | hct
      · have htail := deliveredTo_broadcast_not_mem t c.id m hn.1
        simp only [deliveredTo] at htail
        simp [deliveredTo, List.filterMap_cons, chatPayload, htail]
        intro a ha he
        exact hn.1 (List.mem_map.mpr ⟨a, ha, he⟩)
      · have hne : ¬ s.id = c.id := by
          intro he
          exact hn.1 (he ▸ List.mem_map.mpr ⟨c, hct, rfl⟩)
        simp only [List.map_cons, deliveredTo, List.filterMap_cons]
        rw [if_neg hne]
        exact ih hn.2 hct

theorem deliveredTo_step (sanitize : String → String) (st : RoomState) (e : InEv) (c : Conn)
    (hc : c ∈ st.sockets) (hn : (st.sockets.map (fun s => s.id)).Nodup) :
    deliveredTo c.id (webSocketMessage sanitize st e.sender e.ctx e.data).2 =
      (acceptedEvent sanitize st e).toList := by
  rcases e with ⟨sender, ctx, data⟩
  simp only [acceptedEvent]
  cases hr : (checkRateLimit rateLimitConfig ctx.now (lookupRL st.rateLimitMap sender.userId)).1 with
  | blocked b =>
      cases data <;>
        simp [webSocketMessage, hr, RateLimitResult.isAllowed, deliveredTo, chatPayload]
  | allowed r =>
      cases data with
      | ping => simp [webSocketMessage, hr, deliveredTo, chatPayload]
      | unknown => simp [webSocketMessage, hr, deliveredTo, chatPayload]
      | message raw =>
          by_cases hsus : containsSuspiciousContent raw
          · simp [webSocketMessage, hr, hsus, RateLimitResult.isAllowed, deliveredTo,
              chatPayload]
          · by_cases hne : jsTrim (sanitize raw) = ""
            · simp [webSocketMessage, hr, hsus, hne, RateLimitResult.isAllowed, deliveredTo,
                chatPayload]
            · have hout : (webSocketMessage sanitize st sender ctx (Inbound.message raw)).2 =
                  st.sockets.map (fun s =>
                    (s.id, Outbound.chat (chatEventOf sender ctx (sanitize raw)))) := by
                simp only [webSocketMessage, hr]
                rw [if_neg (by simp [hsus]), if_neg hne]
                exact broadcastMessage_none _ _
              rw [hout, deliveredTo_broadcast st.sockets c _ hn hc]
              simp [RateLimitResult.isAllowed, hsus, hne]

/-- C1: processing any sequence of inbound frames serially, the `message`
ChatEvents delivered to each connected socket are exactly the accepted
ChatEvents, in acceptance order: every accepted message is broadcast to
every live socket within its own processing step, so the per-connection
delivery order mirrors the room's serialized acceptance order (inbound
frames never change the socket set). -/
theorem C1_broadcast_order (sanitize : String → String) (st : RoomState)
    (evs : List InEv) (c : Conn)
    (hc : c ∈ st.sockets) (hn : (st.sockets.map (fun s => s.id)).Nodup) :
    deliveredTo c.id (processEvents sanitize st evs).2 = acceptedList sanitize st evs
  ∧ (processEvents sanitize st evs).1.sockets = st.sockets := by
  induction evs generalizing st with
  | nil => exact ⟨rfl, rfl⟩
  | cons e es ih =>
      have hsock := webSocketMessage_sockets sanitize st e.sender e.ctx e.data
      have hc' : c ∈ (webSocketMessage sanitize st e.sender e.ctx e.data).1.sockets := by
        rw [hsock]; exact hc
      have hn' : ((webSocketMessage sanitize st e.sender e.ctx e.data).1.sockets.map
          (fun s => s.id)).Nodup := by rw [hsock]; exact hn
      obtain ⟨ih1, ih2⟩ := ih (webSocketMessage sanitize st e.sender e.ctx e.data).1 hc' hn'
      constructor
      · simp only [processEvents, acceptedList]
        rw [deliveredTo_append, deliveredTo_step sanitize st e c hc hn, ih1]
      · simp only [processEvents]
        rw [ih2, hsock]

theorem C1_broadcast_order_witness :
    deliveredTo (Conn.mk 1 "u" "Ann").id
      (processEvents (fun s => s)
        (RoomState.mk [Conn.mk 1 "u" "Ann", Conn.mk 2 "v" "Bea"] [] [])
        [InEv.mk (Conn.mk 1 "u" "Ann") (MsgCtx.mk 0 "a") (Inbound.message "hello"),
         InEv.mk (Conn.mk 2 "v" "Bea") (MsgCtx.mk 1 "b") (Inbound.message "world")]).2 =
      acceptedList (fun s => s)
        (RoomState.mk [Conn.mk 1 "u" "Ann", Conn.mk 2 "v" "Bea"] [] [])
        [InEv.mk (Conn.mk 1 "u" "Ann") (MsgCtx.mk 0 "a") (Inbound.message "hello"),
         InEv.mk (Conn.mk 2 "v" "Bea") (MsgCtx.mk 1 "b") (Inbound.message "world")]
  ∧ (processEvents (fun s => s)
        (RoomState.mk [Conn.mk 1 "u" "Ann", Conn.mk 2 "v" "Bea"] [] [])
        [InEv.mk (Conn.mk 1 "u" "Ann") (MsgCtx.mk 0 "a") (Inbound.message "hello"),
         InEv.mk (Conn.mk 2 "v" "Bea") (MsgCtx.mk 1 "b") (Inbound.message "world")]).1.sockets =
      (RoomState.mk [Conn.mk 1 "u" "Ann", Conn.mk 2 "v" "Bea"] [] []).sockets
  ∧ acceptedList (fun s => s)
        (RoomState.mk [Conn.mk 1 "u" "Ann", Conn.mk 2 "v" "Bea"] [] [])
        [InEv.mk (Conn.mk 1 "u" "Ann") (MsgCtx.mk 0 "a") (Inbound.message "hello"),
         InEv.mk (Conn.mk 2 "v" "Bea") (MsgCtx.mk 1 "b") (Inbound.message "world")] =
      [ChatMessage.mk "a" "u" "Ann" "hello" 0 MsgType.message,
       ChatMessage.mk "b" "v" "Bea" "world" 1 MsgType.message] := by
  have h := C1_broadcast_order (fun s => s)
    (RoomState.mk [Conn.mk 1 "u" "Ann", Conn.mk 2 "v" "Bea"] [] [])
    [InEv.mk (Conn.mk 1 "u" "Ann") (MsgCtx.mk 0 "a") (Inbound.message "hello"),
     InEv.mk (Conn.mk 2 "v" "Bea") (MsgCtx.mk 1 "b") (Inbound.message "world")]
    (Conn.mk 1 "u" "Ann") (by decide) (by decide)
  exact ⟨h.1, h.2, by decide⟩

theorem collapseWsAux_length (l : List Char) : ∀ b, (collapseWsAux b l).length ≤ l.length := by
  induction l with
  | nil => intro b; simp [collapseWsAux]
  | cons x rest ih =>
      intro b
      simp only [collapseWsAux]
      by_cases hx : isJsSpace x
      · rw [if_pos hx]
        cases b
        · simpa using Nat.succ_le_succ (ih true)
        · simpa using Nat.le_succ_of_le (ih true)
      · rw [if_neg hx]
        simpa using Nat.succ_le_succ (ih false)

theorem collapseWsAux_mem (l : List Char) :
    ∀ b c, c ∈ collapseWsAux b l → c = ' ' ∨ (c ∈ l ∧ isJsSpace c = false) := by
  induction l with
  | nil => intro b c hc; simp [collapseWsAux] at hc
  | cons x rest ih =>
      intro b c hc
      simp only [collapseWsAux] at hc
      by_cases hx : isJsSpace x
      · rw [if_pos hx] at hc
        cases b
        · rcases List.mem_cons.mp hc with rfl | hc'
          · exact Or.inl rfl
          · rcases ih true c hc' with h | ⟨hm, hs⟩
            · exact Or.inl h
            · exact Or.inr ⟨List.mem_cons_of_mem x hm, hs⟩
        · rcases ih true c hc with h | ⟨hm, hs⟩
          · exact Or.inl h
          · exact Or.inr ⟨List.mem_cons_of_mem x hm, hs⟩
      · rw [if_neg hx] at hc
        rcases List.mem_cons.mp hc with rfl | hc'
        · exact Or.inr ⟨List.mem_cons_self c rest, by simpa using hx⟩
        · rcases ih false c hc' with h | ⟨hm, hs⟩
          · exact Or.inl h
          · exact Or.inr ⟨List.mem_cons_of_mem x hm, hs⟩

theorem collapseWsAux_head_true (l : List Char) :
    ∀ c t, collapseWsAux true l = c :: t → isJsSpace c = false := by
  induction l with
  | nil => intro c t h; simp [collapseWsAux] at h
  | cons x rest ih =>
      intro c t h
      simp only [collapseWsAux] at h
      by_cases hx : isJsSpace x
      · rw [if_pos hx] at h
        exact ih c t h
      · rw [if_neg hx] at h
        injection h with h1 h2
        subst h1
        simpa using hx

theorem collapseWsAux_chain (l : List Char) :
    ∀ b, (collapseWsAux b l).Chain'
      (fun a b => ¬(isJsSpace a = true ∧ isJsSpace b = true)) := by
  induction l with
  | nil => intro b; simp [collapseWsAux]
  | cons x rest ih =>
      intro b
      simp only [collapseWsAux]
      by_cases hx : isJsSpace x
      · rw [if_pos hx]
        cases b
        · rw [if_neg (Bool.false_ne_true)]
          rw [List.chain'_cons']
          refine ⟨?_, ih true⟩
          intro y hy
          cases hhead : collapseWsAux true rest with
          | nil => rw [hhead] at hy; simp at hy
          | cons c t =>
              rw [hhead] at hy
              simp only [List.head?_cons, Option.mem_some_iff] at hy
              subst hy
              have hns := collapseWsAux_head_true rest c t hhead
              intro hcon
              rw [hns] at hcon
              exact Bool.false_ne_true hcon.2
        · rw [if_pos rfl]
          exact ih true
      · rw [if_neg hx]
        rw [List.chain'_cons']
        exact ⟨fun y _ hcon => hx hcon.1, ih false⟩

theorem head_dropWhile_false (p : Char → Bool) :
    ∀ (l : List Char) (c : Char) (t : List Char), l.dropWhile p = c :: t → p c = false := by
  intro l
  induction l with
  | nil => intro c t h; simp [List.dropWhile] at h
  | cons x rest ih =>
      intro c t h
      rw [List.dropWhile_cons] at h
      split at h
      · exact ih c t h
      · rename_i hpx
        injection h with h1 h2
        subst h1
        simpa using hpx

theorem dropTrailingWs_leading (l : List Char) : dropTrailingWs l <+: l := by
  have h := (List.dropWhile_suffix (l := l.reverse) isJsSpace).reverse
  rwa [List.reverse_reverse] at h

theorem jsTrimL_sublist (l : List Char) : List.Sublist (jsTrimL l) l :=
  ((dropTrailingWs_leading (l.dropWhile isJsSpace)).sublist).trans (List.dropWhile_sublist _)

theorem jsTrimL_head (l : List Char) :
    ∀ c t, jsTrimL l = c :: t → isJsSpace c = false := by
  intro c t h
  obtain ⟨u, hu⟩ := dropTrailingWs_leading (l.dropWhile isJsSpace)
  rw [show dropTrailingWs (l.dropWhile isJsSpace) = jsTrimL l from rfl, h] at hu
  exact head_dropWhile_false isJsSpace l c (t ++ u) hu.symm

theorem jsTrimL_last (l : List Char) :
    ∀ c t, (jsTrimL l).reverse = c :: t → isJsSpace c = false := by
  intro c t h
  have hrw : (jsTrimL l).reverse = (l.dropWhile isJsSpace).reverse.dropWhile isJsSpace := by
    simp [jsTrimL, dropTrailingWs]
  rw [hrw] at h
  exact head_dropWhile_false isJsSpace _ c t h

theorem chain'_of_leading {R : Char → Char → Prop} {p l : List Char} (hp : p <+: l)
    (h : l.Chain' R) : p.Chain' R := by
  obtain ⟨t, rfl⟩ := hp
  have htake := h.take p.length
  rwa [List.take_left] at htake

theorem chain'_jsTrimL {R : Char → Char → Prop} (l : List Char) (h : l.Chain' R) :
    (jsTrimL l).Chain' R :=
  chain'_of_leading (dropTrailingWs_leading _) (h.suffix (List.dropWhile_suffix _))

theorem sanitizeUsernameL_length (l : List Char) : (sanitizeUsernameL l).length ≤ 50 := by
  have h1 := (jsTrimL_sublist
    (collapseWsAux false (((jsTrimL l).take 50).filter allowedUserChar))).length_le
  have h2 := collapseWsAux_length (((jsTrimL l).take 50).filter allowedUserChar) false
  have h3 := List.length_filter_le allowedUserChar ((jsTrimL l).take 50)
  have h4 : ((jsTrimL l).take 50).length ≤ 50 := by
    rw [List.length_take]; exact min_le_left _ _
  simp only [sanitizeUsernameL, collapseWs]
  omega

theorem sanitizeUsernameL_chars (l : List Char) :
    ∀ c ∈ sanitizeUsernameL l, (isWordChar c || c == ' ' || c == '-' || c == '.') = true := by
  intro c hc
  have h1 : c ∈ collapseWsAux false (((jsTrimL l).take 50).filter allowedUserChar) :=
    (jsTrimL_sublist _).subset hc
  rcases collapseWsAux_mem _ false c h1 with rfl | ⟨hm, hns⟩
  · simp
  · have hall : allowedUserChar c = true := (List.mem_filter.mp hm).2
    simp only [allowedUserChar, hns, Bool.or_false] at hall
    simp only [Bool.or_eq_true] at hall ⊢
    rcases hall with ((hw | hd) | hu) | hdot
    · exact Or.inl (Or.inl (Or.inl hw))
    · exact Or.inl (Or.inr hd)
    · have : c = '_' := eq_of_beq hu
      subst this
      exact Or.inl (Or.inl (Or.inl (by decide)))
    · exact Or.inr hdot

theorem sanitizeUsernameL_chain (l : List Char) :
    (sanitizeUsernameL l).Chain' (fun a b => ¬(isJsSpace a = true ∧ isJsSpace b = true)) :=
  chain'_jsTrimL _ (collapseWsAux_chain _ false)

theorem anonymous_bundle :
    ("Anonymous" : String) ≠ ""
  ∧ ("Anonymous" : String).toList.length ≤ 50
  ∧ (∀ c ∈ ("Anonymous" : String).toList,
      (isWordChar c || c == ' ' || c == '-' || c == '.') = true)
  ∧ ("Anonymous" : String).toList.Chain'
      (fun a b => ¬(isJsSpace a = true ∧ isJsSpace b = true))
  ∧ (∀ c t, ("Anonymous" : String).toList = c :: t → isJsSpace c = false)
  ∧ (∀ c t, ("Anonymous" : String).toList.reverse = c :: t → isJsSpace c = false) := by
  refine ⟨by decide, by decide, by decide, ?_, ?_, ?_⟩
  · rw [show ("Anonymous" : String).toList = ['A', 'n', 'o', 'n', 'y', 'm', 'o', 'u', 's'] from rfl]
    simp only [List.chain'_cons, List.chain'_singleton]
    decide
  · intro c t h
    have hA : ("Anonymous" : String).toList = ['A', 'n', 'o', 'n', 'y', 'm', 'o', 'u', 's'] := rfl
    rw [hA] at h
    injection h with h1 _
    subst h1
    decide
  · intro c t h
    have hA : ("Anonymous" : String).toList.reverse =
        ['s', 'u', 'o', 'm', 'y', 'n', 'o', 'n', 'A'] := rfl
    rw [hA] at h
    injection h with h1 _
    subst h1
    decide

/-- C10: `sanitizeUsername` always returns a non-empty string of at most 50
characters whose characters are word characters, spaces, hyphens,
underscores (covered by word characters) or dots, with no two adjacent
whitespace characters (runs collapsed to single spaces) and no leading or
trailing whitespace; empty input, or input entirely stripped by the
pipeline, yields the literal string `"Anonymous"`. -/
theorem C10_sanitizeUsername (s : String) :
    sanitizeUsername s ≠ ""
  ∧ (sanitizeUsername s).toList.length ≤ 50
  ∧ (∀ c ∈ (sanitizeUsername s).toList,
      (isWordChar c || c == ' ' || c == '-' || c == '.') = true)
  ∧ (sanitizeUsername s).toList.Chain'
      (fun a b => ¬(isJsSpace a = true ∧ isJsSpace b = true))
  ∧ (∀ c t, (sanitizeUsername s).toList = c :: t → isJsSpace c = false)
  ∧ (∀ c t, (sanitizeUsername s).toList.reverse = c :: t → isJsSpace c = false)
  ∧ (s = "" → sanitizeUsername s = "Anonymous")
  ∧ (sanitizeUsernameL s.toList = [] → sanitizeUsername s = "Anonymous") := by
  by_cases hs : s = ""
  · have hres : sanitizeUsername s = "Anonymous" := by
      rw [sanitizeUsername, if_pos hs]
    rw [hres]
    obtain ⟨a1, a2, a3, a4, a5, a6⟩ := anonymous_bundle
    exact ⟨a1, a2, a3, a4, a5, a6, fun _ => rfl, fun _ => rfl⟩
  · by_cases hz : sanitizeUsernameL s.toList = []
    · have hz' : sanitizeUsernameL s.data = [] := hz
      have hres : sanitizeUsername s = "Anonymous" := by
        simp [sanitizeUsername, hs, hz']
      rw [hres]
      obtain ⟨a1, a2, a3, a4, a5, a6⟩ := anonymous_bundle
      exact ⟨a1, a2, a3, a4, a5, a6, fun _ => rfl, fun _ => rfl⟩
    · have hz' : ¬ sanitizeUsernameL s.data = [] := hz
      have hres : sanitizeUsername s = (sanitizeUsernameL s.toList).asString := by
        simp [sanitizeUsername, hs, hz']
      have htl : (sanitizeUsername s).toList = sanitizeUsernameL s.toList := by
        rw [hres]
        rfl
      refine ⟨?_, ?_, ?_, ?_, ?_, ?_, fun h => absurd h hs, fun h => absurd h hz⟩
      · rw [hres]
        intro h
        exact hz (congrArg String.data h)
      · rw [htl]
        exact sanitizeUsernameL_length _
      · rw [htl]
        exact sanitizeUsernameL_chars _
      · rw [htl]
        exact sanitizeUsernameL_chain _
      · rw [htl]
        intro c t h
        exact jsTrimL_head _ c t h
      · rw [htl]
        intro c t h
        exact jsTrimL_last _ c t h

theorem C10_sanitizeUsername_witness :
    sanitizeUsername "" = "Anonymous"
  ∧ sanitizeUsername "@%!" = "Anonymous"
  ∧ sanitizeUsername "  John   Doe!! <x> " ≠ ""
  ∧ (sanitizeUsername "  John   Doe!! <x> ").toList.length ≤ 50
  ∧ (∀ c ∈ (sanitizeUsername "  John   Doe!! <x> ").toList,
      (isWordChar c || c == ' ' || c == '-' || c == '.') = true)
  ∧ (sanitizeUsername "  John   Doe!! <x> ").toList.Chain'
      (fun a b => ¬(isJsSpace a = true ∧ isJsSpace b = true)) :=
  ⟨(C10_sanitizeUsername "").2.2.2.2.2.2.1 rfl,
   (C10_sanitizeUsername "@%!").2.2.2.2.2.2.2 (by decide),
   (C10_sanitizeUsername "  John   Doe!! <x> ").1,
   (C10_sanitizeUsername "  John   Doe!! <x> ").2.1,
   (C10_sanitizeUsername "  John   Doe!! <x> ").2.2.1,
   (C10_sanitizeUsername "  John   Doe!! <x> ").2.2.2.1⟩
